import Mathlib

/-!
Verification of the admission-control scheduler in
`askap_cutout_daemon.py` (GASKAP-HI-Absorption-Pipeline).

The daemon's mutable bookkeeping (`active_ids : set`, `active_ms : list`,
`remaining_array_ids : list`, `completed_srcs : set`, `failed_srcs : set`)
is modelled as a `SchedState` record threaded through pure functions.
Python handle sets (`set` of beam ids) become `Finset ℕ`, the handle
occupancy list `active_ms` becomes a `Multiset ℕ` (its order is never
observed by the program), component names stay `String`.

Fallible Python statements are modelled in `Except PyError`:
  * line 176 `tgt_ms & active_ms` applies the operator `&` to a Python
    `set` (left) and a `list` (right), which raises `TypeError` whenever
    the left conjunct `len(active_ids) > min_concurrency_limit` is true
    (the `and` short-circuits, so the expression is only evaluated then);
  * `list.remove` / `set.remove` of a missing element raise
    `ValueError` / `KeyError`;
  * line 231 `total_concurrency/i` raises `ZeroDivisionError` when the
    driver loop ran zero iterations.
The marker files polled with `os.path.isfile` are abstracted as two
boolean predicates per cycle (`compM`, `failM`), and launching a job
(`run_os_cmd` of `start_job.sh` / `qsub`) is fire-and-forget, so it has
no effect on scheduler state and is not modelled.
-/

namespace AskapCutoutDaemon

/-- Equality of `Except` values is decidable when it is on both sides. -/
instance {ε α : Type} [DecidableEq ε] [DecidableEq α] : DecidableEq (Except ε α) := fun x y =>
  match x, y with
  | .ok a, .ok b => if h : a = b then isTrue (by rw [h]) else isFalse (by simp [h])
  | .error e, .error f => if h : e = f then isTrue (by rw [h]) else isFalse (by simp [h])
  | .ok _, .error _ => isFalse (by simp)
  | .error _, .ok _ => isFalse (by simp)

/-- Python runtime exceptions the daemon's scheduler core can raise. -/
inductive PyError where
  | typeError
  | valueError
  | keyError
  | zeroDivisionError
deriving DecidableEq

/-- Outcome classification of a whole `produce_all_cutouts` run:
a propagated Python exception, or the explicit `Exception` raised at
line 228 when the loop budget is exhausted (carrying the number of
remaining cutouts reported in its message). -/
inductive RunError where
  | pyErr (e : PyError)
  | exhausted (remainingCount : ℕ)
deriving DecidableEq

/-- The scheduler's mutable state: the five collections that
`produce_all_cutouts` creates and threads through `register_active` and
`job_loop`. -/
structure SchedState where
  active_ids : Finset ℕ
  active_ms : Multiset ℕ
  remaining : List ℕ
  completed_srcs : Finset String
  failed_srcs : Finset String
deriving DecidableEq

/-- The run-constant inputs of the scheduler: the target list (dense
ids are 1-based indices into it), the source→beam-set map produced by
`build_map`, and the two concurrency limits. -/
structure Config where
  targets : List String
  src_beam_map : String → Finset ℕ
  concurrency_limit : ℕ
  min_concurrency_limit : ℕ

/-- Python `targets[array_id-1]`: name of the job with the given dense id
(the model totalises the out-of-range case with `""`; every id the
program itself produces is in range `1..len(targets)`). -/
def compName (targets : List String) (array_id : ℕ) : String :=
  targets.getD (array_id - 1) ""

/-- The target-list construction of `read_image_params` (lines 89-93):
collect `component_name` column values in first-occurrence order. A
catalog row is modelled as a (component_name, beam_id) pair. -/
def read_image_params (rows : List (String × ℕ)) : List String :=
  rows.foldl (fun targets row => if row.1 ∈ targets then targets else targets ++ [row.1]) []

/-- `build_map` (lines 96-107): map each component name to the set of
beam ids of its rows. The Python dict is totalised as a function; names
with no row map to `∅` (the program only ever looks up names that have
rows). -/
def build_map (rows : List (String × ℕ)) (comp_name : String) : Finset ℕ :=
  ((rows.filter (fun row => row.1 = comp_name)).map Prod.snd).toFinset

/-- Body of the `for array_id in pre_active_jobs` loop of
`register_active` (lines 114-123): append the job's beam set to
`active_ms` and add its id to `active_ids`. -/
def regStep (targets : List String) (src_beam_map : String → Finset ℕ)
    (st : SchedState) (array_id : ℕ) : SchedState :=
  let tgt_ms := src_beam_map (compName targets array_id)
  { st with active_ms := st.active_ms + tgt_ms.val,
            active_ids := insert array_id st.active_ids }

/-- `register_active` (lines 110-124): seed the state with the jobs of a
previous invocation. Returns the updated state together with the
function's return value (`0` for an empty/missing list, else the
resulting `len(active_ids)`). -/
def register_active (targets : List String) (src_beam_map : String → Finset ℕ)
    (s : SchedState) (pre_active_jobs : List ℕ) : SchedState × ℕ :=
  if pre_active_jobs = [] then (s, 0)
  else
    let s' := pre_active_jobs.foldl (regStep targets src_beam_map) s
    (s', s'.active_ids.card)

/-- `mark_comp_done` (lines 127-130): `active_ids.remove(array_id)`
raises `KeyError` if the id is absent; `active_ms.remove(ms)` for each
`ms` of the (duplicate-free) beam set removes one occurrence each and
raises `ValueError` if one is missing, which happens exactly when the
beam set is not contained in the occupancy multiset. -/
def mark_comp_done (array_id : ℕ) (tgt_ms : Finset ℕ) (s : SchedState) :
    Except PyError SchedState :=
  if array_id ∈ s.active_ids then
    if tgt_ms.val ≤ s.active_ms then
      .ok { s with active_ids := s.active_ids.erase array_id,
                   active_ms := s.active_ms - tgt_ms.val }
    else .error .valueError
  else .error .keyError

/-- Body of the completion-scan loop of `job_loop` (lines 139-163) for a
single `array_id`: skip names already retired, then check the COMPLETED
marker and then the FAILED marker; on a marker, release the handles via
`mark_comp_done` when the id is active, record the name in the matching
retired set and remove the id from `remaining_array_ids`. -/
def scan_step (cfg : Config) (compM failM : ℕ → Bool) (s : SchedState) (array_id : ℕ) :
    Except PyError SchedState :=
  let comp_name := compName cfg.targets array_id
  if comp_name ∈ s.completed_srcs ∨ comp_name ∈ s.failed_srcs then .ok s
  else if compM array_id then
    match (if array_id ∈ s.active_ids then
             mark_comp_done array_id (cfg.src_beam_map comp_name) s
           else .ok s) with
    | .error e => .error e
    | .ok s1 => .ok { s1 with completed_srcs := insert comp_name s1.completed_srcs,
                              remaining := s1.remaining.erase array_id }
  else if failM array_id then
    match (if array_id ∈ s.active_ids then
             mark_comp_done array_id (cfg.src_beam_map comp_name) s
           else .ok s) with
    | .error e => .error e
    | .ok s1 => .ok { s1 with failed_srcs := insert comp_name s1.failed_srcs,
                              remaining := s1.remaining.erase array_id }
  else .ok s

/-- A Python `for` loop whose body may raise: fold the body over the
items, propagating the first exception. -/
def exceptFold (f : SchedState → ℕ → Except PyError SchedState) :
    SchedState → List ℕ → Except PyError SchedState
  | s, [] => .ok s
  | s, id :: rest =>
    match f s id with
    | .error e => .error e
    | .ok s' => exceptFold f s' rest

/-- First phase of `job_loop` (lines 136-163): scan a snapshot
(`ids_to_scan = list(remaining_array_ids)`) of the remaining ids for
completion/failure markers. -/
def observer_scan (cfg : Config) (compM failM : ℕ → Bool) (s : SchedState) :
    Except PyError SchedState :=
  exceptFold (scan_step cfg compM failM) s s.remaining

/-- Body of the admission loop of `job_loop` (lines 166-196) for a
single `array_id`: skip active ids and already-completed names; then
line 176 evaluates `tgt_ms & active_ms` whenever
`len(active_ids) > min_concurrency_limit`, which raises `TypeError`
(`set & list`); otherwise admit the job when below the concurrency
limit. The `rate_limited` flag and all printing are dropped (pure
logging), and launching the job does not touch scheduler state. -/
def admit_step (cfg : Config) (s : SchedState) (array_id : ℕ) : Except PyError SchedState :=
  if array_id ∈ s.active_ids then .ok s
  else
    let comp_name := compName cfg.targets array_id
    if comp_name ∈ s.completed_srcs then .ok s
    else
      let tgt_ms := cfg.src_beam_map comp_name
      if s.active_ids.card > cfg.min_concurrency_limit then .error .typeError
      else if s.active_ids.card < cfg.concurrency_limit then
        .ok { s with active_ms := s.active_ms + tgt_ms.val,
                     active_ids := insert array_id s.active_ids }
      else .ok s

/-- Second phase of `job_loop` (lines 166-196): scan the remaining ids
for jobs to start (the loop iterates the live list, which this phase
never mutates). -/
def admission_scan (cfg : Config) (s : SchedState) : Except PyError SchedState :=
  exceptFold (admit_step cfg) s s.remaining

/-- `job_loop` (lines 133-197): one full cycle — completion scan, then
admission scan — returning the updated state and `len(active_ids)`. -/
def job_loop (cfg : Config) (compM failM : ℕ → Bool) (s : SchedState) :
    Except PyError (SchedState × ℕ) :=
  match observer_scan cfg compM failM s with
  | .error e => .error e
  | .ok s1 =>
    match admission_scan cfg s1 with
    | .error e => .error e
    | .ok s2 => .ok (s2, s2.active_ids.card)

/-- The state `produce_all_cutouts` builds at lines 202-206:
`remaining_array_ids = list(range(1, len(targets)+1))` and four empty
collections. -/
def initState (targets : List String) : SchedState :=
  { active_ids := ∅, active_ms := 0, remaining := List.range' 1 targets.length,
    completed_srcs := ∅, failed_srcs := ∅ }

/-- Scheduler state right after pre-activation (line 211), the first
observation point of a run. -/
def preActivationState (cfg : Config) (pre : List ℕ) : SchedState :=
  (register_active cfg.targets cfg.src_beam_map (initState cfg.targets) pre).1

/-- The post-loop epilogue of `produce_all_cutouts` (lines 224-231):
raise the exhaustion `Exception` when jobs remain, otherwise report the
average concurrency `total_concurrency/i` — a `ZeroDivisionError` when
zero loop iterations ran. On success the pair (iterations, total
concurrency) is returned. -/
def finish_run (i : ℕ) (s : SchedState) (total : ℕ) : Except RunError (ℕ × ℕ) :=
  if s.remaining.length > 0 then .error (.exhausted s.remaining.length)
  else if i = 0 then .error (.pyErr .zeroDivisionError)
  else .ok (i, total)

/-- The `while len(remaining_array_ids) > 0 and i < max_loops` loop of
`produce_all_cutouts` (lines 213-222), with `loops_left = max_loops - i`
made structural. `compM`/`failM` give the marker-file state observed by
cycle number (the markers of loop iteration `i+1` are sampled when that
cycle's `os.path.isfile` calls run). -/
def driver_loop (cfg : Config) (compM failM : ℕ → ℕ → Bool) :
    ℕ → ℕ → SchedState → ℕ → Except RunError (ℕ × ℕ)
  | 0, i, s, total => finish_run i s total
  | loops_left + 1, i, s, total =>
    if s.remaining.length > 0 then
      match job_loop cfg (compM (i + 1)) (failM (i + 1)) s with
      | .error e => .error (.pyErr e)
      | .ok (s', n) => driver_loop cfg compM failM loops_left (i + 1) s' (total + n)
    else finish_run i s total

/-- `produce_all_cutouts` (lines 200-231): build the initial state,
register the pre-active jobs (whose return value seeds
`total_concurrency`), and run the driver loop. -/
def produce_all_cutouts (cfg : Config) (compM failM : ℕ → ℕ → Bool)
    (pre_active_jobs : List ℕ) (max_loops : ℕ) : Except RunError (ℕ × ℕ) :=
  let s0 := initState cfg.targets
  let r := register_active cfg.targets cfg.src_beam_map s0 pre_active_jobs
  driver_loop cfg compM failM max_loops 0 r.1 r.2

/-- State after `j` further scheduler cycles starting from cycle index
`i` — the observation points of a run (cycle `i+1` samples the marker
schedules at `i+1`, matching `driver_loop`). -/
def iterate_job_loop (cfg : Config) (compM failM : ℕ → ℕ → Bool) :
    ℕ → ℕ → SchedState → Except PyError SchedState
  | _, 0, s => .ok s
  | i, j + 1, s =>
    match job_loop cfg (compM (i + 1)) (failM (i + 1)) s with
    | .error e => .error e
    | .ok (s', _) => iterate_job_loop cfg compM failM (i + 1) j s'

/-- The occupancy multiset a well-formed state should carry: the
multiset union of the beam sets of all currently active jobs. -/
def heldOf (cfg : Config) (ids : Finset ℕ) : Multiset ℕ :=
  ids.sum (fun id => (cfg.src_beam_map (compName cfg.targets id)).val)

/-! ### Concrete run instances used as counterexamples and witnesses -/

/-- Two jobs sharing beam 1; floor 0, so any active job puts the
admission scan above the floor. -/
def cfgConflict : Config := ⟨["A", "B"], fun _ => {1}, 12, 0⟩

/-- Job 1 running and holding beam 1; job 2 queued. -/
def stConflict : SchedState := ⟨{1}, {1}, [2], ∅, ∅⟩

/-- Two jobs sharing beam 1; floor 1, ceiling 2. -/
def cfgFloor : Config := ⟨["A", "B"], fun _ => {1}, 2, 1⟩

/-- Job 1 running and holding beam 1; job 2 queued — at the floor. -/
def stFloor : SchedState := ⟨{1}, {1}, [2], ∅, ∅⟩

/-- Ceiling 1, two jobs: pre-activating both overshoots the ceiling. -/
def cfgOverPre : Config := ⟨["A", "B"], fun _ => {1}, 1, 0⟩

/-- One job on beam 1; floor = ceiling = 1, markers never appear. -/
def cfgStall : Config := ⟨["A"], fun _ => {1}, 1, 1⟩

/-- One job on beam 5; duplicate pre-activation double-counts it. -/
def cfgDupPre : Config := ⟨["A"], fun _ => {5}, 12, 6⟩

/-- Jobs A on beam 1 and B on beam 2. -/
def cfgMark : Config := ⟨["A", "B"], fun n => if n = "A" then {1} else {2}, 2, 1⟩

/-- Job 1 active holding beam 1, both jobs still queued. -/
def stMark : SchedState := ⟨{1}, {1}, [1, 2], ∅, ∅⟩

/-- Jobs A and B both needing beam 7; ceiling 1, floor 0. -/
def cfgCycle : Config := ⟨["A", "B"], fun _ => {7}, 1, 0⟩

/-- Job 1 active holding beam 7, both jobs queued. -/
def stCycle : SchedState := ⟨{1}, {7}, [1, 2], ∅, ∅⟩

/-- An empty catalog. -/
def cfgEmptyCat : Config := ⟨[], fun _ => ∅, 12, 6⟩

/-! ### Generic invariant lemmas about the loops -/

/-- An invariant preserved by every successful body step is preserved by
the whole exception-propagating loop. -/
theorem exceptFold_inv {P : SchedState → Prop} {f : SchedState → ℕ → Except PyError SchedState}
    (hf : ∀ s a s', P s → f s a = .ok s' → P s') :
    ∀ (l : List ℕ) (s s' : SchedState), P s → exceptFold f s l = .ok s' → P s' := by
  intro l
  induction l with
  | nil =>
    intro s s' hP h
    simp [exceptFold] at h
    exact h ▸ hP
  | cons a rest ih =>
    intro s s' hP h
    unfold exceptFold at h
    cases hfa : f s a with
    | error e => rw [hfa] at h; simp at h
    | ok s1 => rw [hfa] at h; exact ih s1 s' (hf s a s1 hP hfa) h

/-- Case analysis of a successful completion-scan step: either nothing
changed, or the id was retired without being active (no-op on the
occupancy), or the id was active and exactly its beam set was released. -/
theorem scan_step_spec {cfg : Config} {compM failM : ℕ → Bool} {s : SchedState}
    {array_id : ℕ} {s' : SchedState}
    (h : scan_step cfg compM failM s array_id = .ok s') :
    s' = s ∨
    (array_id ∉ s.active_ids ∧ s'.active_ids = s.active_ids ∧ s'.active_ms = s.active_ms ∧
      s'.remaining = s.remaining.erase array_id) ∨
    (array_id ∈ s.active_ids ∧ s'.active_ids = s.active_ids.erase array_id ∧
      s'.active_ms = s.active_ms - (cfg.src_beam_map (compName cfg.targets array_id)).val ∧
      s'.remaining = s.remaining.erase array_id) := by
  by_cases h1 : compName cfg.targets array_id ∈ s.completed_srcs ∨
      compName cfg.targets array_id ∈ s.failed_srcs
  · left
    simp [scan_step, h1] at h
    exact h.symm
  · by_cases h3 : array_id ∈ s.active_ids
    · by_cases h4 : (cfg.src_beam_map (compName cfg.targets array_id)).val ≤ s.active_ms
      · by_cases h2 : compM array_id
        · right; right
          simp [scan_step, h1, h2, h3, mark_comp_done, h4] at h
          refine ⟨h3, ?_, ?_, ?_⟩ <;> rw [← h]
        · by_cases h5 : failM array_id
          · right; right
            simp [scan_step, h1, h2, h5, h3, mark_comp_done, h4] at h
            refine ⟨h3, ?_, ?_, ?_⟩ <;> rw [← h]
          · left
            simp [scan_step, h1, h2, h5] at h
            exact h.symm
      · by_cases h2 : compM array_id
        · simp [scan_step, h1, h2, h3, mark_comp_done, h4] at h
        · by_cases h5 : failM array_id
          · simp [scan_step, h1, h2, h5, h3, mark_comp_done, h4] at h
          · left
            simp [scan_step, h1, h2, h5] at h
            exact h.symm
    · by_cases h2 : compM array_id
      · right; left
        simp [scan_step, h1, h2, h3] at h
        refine ⟨h3, ?_, ?_, ?_⟩ <;> rw [← h]
      · by_cases h5 : failM array_id
        · right; left
          simp [scan_step, h1, h2, h5, h3] at h
          refine ⟨h3, ?_, ?_, ?_⟩ <;> rw [← h]
        · left
          simp [scan_step, h1, h2, h5] at h
          exact h.symm

/-- Case analysis of a successful admission step: either the id was
skipped with nothing changed, or it was admitted: it was not active, the
active count was at or below the floor (otherwise line 176 raises) and
strictly below the ceiling, and exactly its id and beam set were added. -/
theorem admit_step_spec {cfg : Config} {s : SchedState} {array_id : ℕ} {s' : SchedState}
    (h : admit_step cfg s array_id = .ok s') :
    s' = s ∨
    (array_id ∉ s.active_ids ∧ s.active_ids.card ≤ cfg.min_concurrency_limit ∧
      s.active_ids.card < cfg.concurrency_limit ∧
      s' = { s with active_ms := s.active_ms +
                      (cfg.src_beam_map (compName cfg.targets array_id)).val,
                    active_ids := insert array_id s.active_ids }) := by
  by_cases h1 : array_id ∈ s.active_ids
  · left
    simp [admit_step, h1] at h
    exact h.symm
  · by_cases h2 : compName cfg.targets array_id ∈ s.completed_srcs
    · left
      simp [admit_step, h1, h2] at h
      exact h.symm
    · by_cases h3 : s.active_ids.card > cfg.min_concurrency_limit
      · simp [admit_step, h1, h2, h3] at h
      · by_cases h4 : s.active_ids.card < cfg.concurrency_limit
        · right
          simp [admit_step, h1, h2, h3, h4] at h
          exact ⟨h1, Nat.le_of_not_lt h3, h4, h.symm⟩
        · left
          simp [admit_step, h1, h2, h3, h4] at h
          exact h.symm

/-- A cycle-level invariant lemma: any property preserved by both loop
bodies is preserved by a successful `job_loop` cycle. -/
theorem job_loop_inv {P : SchedState → Prop} {cfg : Config} {compM failM : ℕ → Bool}
    {s s' : SchedState} {n : ℕ}
    (hscan : ∀ t a t', P t → scan_step cfg compM failM t a = .ok t' → P t')
    (hadm : ∀ t a t', P t → admit_step cfg t a = .ok t' → P t')
    (h : job_loop cfg compM failM s = .ok (s', n)) (hP : P s) : P s' := by
  unfold job_loop at h
  cases h1 : observer_scan cfg compM failM s with
  | error e => rw [h1] at h; simp at h
  | ok s1 =>
    rw [h1] at h
    dsimp only at h
    cases h2 : admission_scan cfg s1 with
    | error e => rw [h2] at h; simp at h
    | ok s2 =>
      rw [h2] at h
      simp at h
      have hP1 : P s1 := exceptFold_inv hscan s.remaining s s1 hP h1
      have hP2 : P s2 := exceptFold_inv hadm s1.remaining s1 s2 hP1 h2
      exact h.1 ▸ hP2

/-- A run-level invariant lemma: a property preserved by both loop
bodies under every marker schedule holds at every later observation
point. -/
theorem iterate_inv {P : SchedState → Prop} {cfg : Config} {compM failM : ℕ → ℕ → Bool}
    (hscan : ∀ (cM fM : ℕ → Bool) t a t', P t → scan_step cfg cM fM t a = .ok t' → P t')
    (hadm : ∀ t a t', P t → admit_step cfg t a = .ok t' → P t') :
    ∀ (j i : ℕ) (s s' : SchedState), P s →
      iterate_job_loop cfg compM failM i j s = .ok s' → P s' := by
  intro j
  induction j with
  | zero =>
    intro i s s' hP h
    simp [iterate_job_loop] at h
    exact h ▸ hP
  | succ j ih =>
    intro i s s' hP h
    unfold iterate_job_loop at h
    cases hjl : job_loop cfg (compM (i + 1)) (failM (i + 1)) s with
    | error e => rw [hjl] at h; simp at h
    | ok p =>
      rw [hjl] at h
      exact ih (i + 1) p.1 s' (job_loop_inv (hscan _ _) hadm hjl hP) h

/-! ### Preservation of the two state invariants by the loop bodies -/

/-- A completion-scan step never increases the active count. -/
theorem scan_step_card_le {cfg : Config} {compM failM : ℕ → Bool} {s s' : SchedState}
    {array_id L : ℕ} (h : scan_step cfg compM failM s array_id = .ok s')
    (hc : s.active_ids.card ≤ L) : s'.active_ids.card ≤ L := by
  rcases scan_step_spec h with rfl | ⟨_, h1, _, _⟩ | ⟨_, h1, _, _⟩
  · exact hc
  · rw [h1]; exact hc
  · rw [h1]; exact le_trans (Finset.card_erase_le) hc

/-- An admission step keeps the active count at or below the ceiling. -/
theorem admit_step_card_le {cfg : Config} {s s' : SchedState} {array_id : ℕ}
    (h : admit_step cfg s array_id = .ok s')
    (hc : s.active_ids.card ≤ cfg.concurrency_limit) :
    s'.active_ids.card ≤ cfg.concurrency_limit := by
  rcases admit_step_spec h with rfl | ⟨h1, _, h3, rfl⟩
  · exact hc
  · simpa [Finset.card_insert_of_not_mem h1] using h3

/-- A completion-scan step preserves "the occupancy multiset is the
multiset union of the beam sets of the active jobs". -/
theorem scan_step_held {cfg : Config} {compM failM : ℕ → Bool} {s s' : SchedState}
    {array_id : ℕ} (h : scan_step cfg compM failM s array_id = .ok s')
    (hh : s.active_ms = heldOf cfg s.active_ids) :
    s'.active_ms = heldOf cfg s'.active_ids := by
  rcases scan_step_spec h with rfl | ⟨_, h1, h2, _⟩ | ⟨hmem, h1, h2, _⟩
  · exact hh
  · rw [h1, h2]; exact hh
  · rw [h1, h2, hh]
    unfold heldOf
    rw [← Finset.add_sum_erase _ _ hmem]
    exact add_tsub_cancel_left _ _

/-- An admission step preserves "the occupancy multiset is the multiset
union of the beam sets of the active jobs". -/
theorem admit_step_held {cfg : Config} {s s' : SchedState} {array_id : ℕ}
    (h : admit_step cfg s array_id = .ok s')
    (hh : s.active_ms = heldOf cfg s.active_ids) :
    s'.active_ms = heldOf cfg s'.active_ids := by
  rcases admit_step_spec h with rfl | ⟨h1, _, _, rfl⟩
  · exact hh
  · unfold heldOf
    rw [Finset.sum_insert h1]
    simp only [hh]
    exact add_comm _ _

/-! ### Pre-activation lemmas -/

/-- Each pre-activation step adds at most one active id. -/
theorem regFold_card_le (targets : List String) (m : String → Finset ℕ) :
    ∀ (pre : List ℕ) (s : SchedState),
      (pre.foldl (regStep targets m) s).active_ids.card ≤ s.active_ids.card + pre.length := by
  intro pre
  induction pre with
  | nil => intro s; simp
  | cons a rest ih =>
    intro s
    simp only [List.foldl_cons, List.length_cons]
    have h1 := ih (regStep targets m s a)
    have h2 : (regStep targets m s a).active_ids.card ≤ s.active_ids.card + 1 :=
      Finset.card_insert_le _ _
    omega

/-- `register_active` grows the active set by at most the length of the
pre-active list. -/
theorem register_active_card_le (targets : List String) (m : String → Finset ℕ)
    (s : SchedState) (pre : List ℕ) :
    ((register_active targets m s pre).1).active_ids.card ≤ s.active_ids.card + pre.length := by
  unfold register_active
  split
  · simp
  · exact regFold_card_le targets m pre s

/-- Pre-activating distinct fresh ids establishes the occupancy
invariant. -/
theorem regFold_held (cfg : Config) :
    ∀ (pre : List ℕ) (s : SchedState), pre.Nodup →
      (∀ a ∈ pre, a ∉ s.active_ids) →
      s.active_ms = heldOf cfg s.active_ids →
      (pre.foldl (regStep cfg.targets cfg.src_beam_map) s).active_ms
        = heldOf cfg (pre.foldl (regStep cfg.targets cfg.src_beam_map) s).active_ids := by
  intro pre
  induction pre with
  | nil => intro s _ _ hP; simpa using hP
  | cons a rest ih =>
    intro s hnd hnm hP
    obtain ⟨hna, hndr⟩ := List.nodup_cons.mp hnd
    simp only [List.foldl_cons]
    apply ih _ hndr
    · intro b hb
      simp only [regStep, Finset.mem_insert]
      push_neg
      refine ⟨fun hba => hna (hba ▸ hb), hnm b (List.mem_cons_of_mem a hb)⟩
    · simp only [regStep]
      unfold heldOf
      rw [Finset.sum_insert (hnm a (List.mem_cons_self a rest))]
      rw [hP]
      exact add_comm _ _

/-- Pre-activating distinct fresh ids adds exactly one active id each. -/
theorem regFold_card (targets : List String) (m : String → Finset ℕ) :
    ∀ (pre : List ℕ) (s : SchedState), pre.Nodup →
      (∀ a ∈ pre, a ∉ s.active_ids) →
      (pre.foldl (regStep targets m) s).active_ids.card = s.active_ids.card + pre.length := by
  intro pre
  induction pre with
  | nil => intro s _ _; simp
  | cons a rest ih =>
    intro s hnd hnm
    obtain ⟨hna, hndr⟩ := List.nodup_cons.mp hnd
    simp only [List.foldl_cons, List.length_cons]
    rw [ih _ hndr]
    · simp only [regStep]
      rw [Finset.card_insert_of_not_mem (hnm a (List.mem_cons_self a rest))]
      omega
    · intro b hb
      simp only [regStep, Finset.mem_insert]
      push_neg
      refine ⟨fun hba => hna (hba ▸ hb), hnm b (List.mem_cons_of_mem a hb)⟩

/-- Pre-activation appends exactly the beam multisets of the listed
jobs to the occupancy multiset (no conflict filtering of any kind). -/
theorem regFold_ms (targets : List String) (m : String → Finset ℕ) :
    ∀ (pre : List ℕ) (s : SchedState),
      (pre.foldl (regStep targets m) s).active_ms
        = s.active_ms + (pre.map (fun array_id => (m (compName targets array_id)).val)).sum := by
  intro pre
  induction pre with
  | nil => intro s; simp
  | cons a rest ih =>
    intro s
    simp only [List.foldl_cons, List.map_cons, List.sum_cons]
    rw [ih]
    simp only [regStep]
    rw [add_assoc]

/-! ### Driver-loop lemmas -/

/-- A cycle over an empty queue is the identity: both scans iterate zero
ids. -/
theorem job_loop_empty {cfg : Config} {compM failM : ℕ → Bool} {s : SchedState}
    (h : s.remaining = []) :
    job_loop cfg compM failM s = .ok (s, s.active_ids.card) := by
  simp [job_loop, observer_scan, admission_scan, h, exceptFold]

/-- Once the queue is empty it stays empty: further cycles change
nothing. -/
theorem iterate_job_loop_empty {cfg : Config} {compM failM : ℕ → ℕ → Bool} {s : SchedState}
    (h : s.remaining = []) :
    ∀ (j i : ℕ), iterate_job_loop cfg compM failM i j s = .ok s := by
  intro j
  induction j with
  | zero => intro i; rfl
  | succ j ih => intro i; simp [iterate_job_loop, job_loop_empty h, ih]

/-- The epilogue returns successfully only with the iteration count it
was given. -/
theorem finish_run_ok {i total iters t : ℕ} {s : SchedState}
    (h : finish_run i s total = .ok (iters, t)) : iters = i := by
  unfold finish_run at h
  split at h
  · simp at h
  · split at h
    · simp at h
    · simp at h; exact h.1.symm

/-- If the queue is still non-empty after running the whole loop budget,
the driver loop raises the exhaustion error with the count of remaining
jobs. -/
theorem driver_loop_exhausts {cfg : Config} {compM failM : ℕ → ℕ → Bool} :
    ∀ (j i : ℕ) (s s' : SchedState) (total : ℕ),
      iterate_job_loop cfg compM failM i j s = .ok s' → s'.remaining ≠ [] →
      driver_loop cfg compM failM j i s total = .error (.exhausted s'.remaining.length) := by
  intro j
  induction j with
  | zero =>
    intro i s s' total hit hne
    simp [iterate_job_loop] at hit
    subst hit
    simp only [driver_loop, finish_run]
    rw [if_pos (by simpa [List.length_pos] using hne)]
  | succ j ih =>
    intro i s s' total hit hne
    have hsne : s.remaining ≠ [] := by
      intro hempty
      rw [iterate_job_loop_empty hempty (j + 1) i] at hit
      simp at hit
      exact hne (hit ▸ hempty)
    unfold iterate_job_loop at hit
    unfold driver_loop
    rw [if_pos (by simpa [List.length_pos] using hsne)]
    cases hjl : job_loop cfg (compM (i + 1)) (failM (i + 1)) s with
    | error e => rw [hjl] at hit; simp at hit
    | ok p =>
      rw [hjl] at hit
      dsimp only at hit
      exact ih (i + 1) p.1 s' (total + p.2) hit hne

/-- The driver loop can only return successfully with an iteration count
bounded by the loop budget it started with. -/
theorem driver_loop_ok_le {cfg : Config} {compM failM : ℕ → ℕ → Bool} :
    ∀ (j i : ℕ) (s : SchedState) (total iters t : ℕ),
      driver_loop cfg compM failM j i s total = .ok (iters, t) → iters ≤ i + j := by
  intro j
  induction j with
  | zero =>
    intro i s total iters t h
    simp only [driver_loop] at h
    have := finish_run_ok h
    omega
  | succ j ih =>
    intro i s total iters t h
    unfold driver_loop at h
    split at h
    · cases hjl : job_loop cfg (compM (i + 1)) (failM (i + 1)) s with
      | error e => rw [hjl] at h; simp at h
      | ok p =>
        rw [hjl] at h
        dsimp only at h
        have := ih (i + 1) p.1 (total + p.2) iters t h
        omega
    · have := finish_run_ok h
      omega

/-! ### Catalog lemmas -/

/-- Accumulator characterisation of the first-occurrence fold of
`read_image_params`. -/
theorem mem_read_image_params_fold :
    ∀ (rows : List (String × ℕ)) (acc : List String) (x : String),
      (x ∈ rows.foldl (fun targets row =>
          if row.1 ∈ targets then targets else targets ++ [row.1]) acc) ↔
        x ∈ acc ∨ x ∈ rows.map Prod.fst := by
  intro rows
  induction rows with
  | nil => intro acc x; simp
  | cons r rest ih =>
    intro acc x
    simp only [List.foldl_cons, List.map_cons, List.mem_cons]
    by_cases hr : r.1 ∈ acc
    · rw [if_pos hr, ih]
      constructor
      · rintro (hx | hx)
        · exact Or.inl hx
        · exact Or.inr (Or.inr hx)
      · rintro (hx | hx | hx)
        · exact Or.inl hx
        · exact Or.inl (hx ▸ hr)
        · exact Or.inr hx
    · rw [if_neg hr, ih]
      simp only [List.mem_append, List.mem_singleton]
      tauto

/-- A target produced by `read_image_params` is the name of some catalog
row. -/
theorem mem_read_image_params {rows : List (String × ℕ)} {x : String}
    (h : x ∈ read_image_params rows) : x ∈ rows.map Prod.fst := by
  have := (mem_read_image_params_fold rows [] x).mp h
  simpa using this

/-- Every name in the target list has at least one beam in the source
map: `build_map` adds a beam for every row of the name. -/
theorem build_map_nonempty {rows : List (String × ℕ)} {x : String}
    (h : x ∈ read_image_params rows) : build_map rows x ≠ ∅ := by
  obtain ⟨row, hrow, hfst⟩ := List.mem_map.mp (mem_read_image_params h)
  apply Finset.ne_empty_of_mem (a := row.2)
  simp only [build_map, List.mem_toFinset, List.mem_map]
  exact ⟨row, List.mem_filter.mpr ⟨hrow, by simp [hfst]⟩, rfl⟩

/-- Ids whose handle sets are pairwise disjoint and all non-empty are
pairwise distinct. -/
theorem pairwise_disjoint_nodup {H : ℕ → Finset ℕ} :
    ∀ {pre : List ℕ}, pre.Pairwise (fun a b => Disjoint (H a) (H b)) →
      (∀ a ∈ pre, H a ≠ ∅) → pre.Nodup := by
  intro pre
  induction pre with
  | nil => intro _ _; exact List.nodup_nil
  | cons a rest ih =>
    intro hpw hne
    obtain ⟨hd, hpwr⟩ := List.pairwise_cons.mp hpw
    refine List.nodup_cons.mpr ⟨?_, ih hpwr fun b hb => hne b (List.mem_cons_of_mem a hb)⟩
    intro hmem
    have hdisj : Disjoint (H a) (H a) := hd a hmem
    exact hne a (List.mem_cons_self a rest) ((Finset.disjoint_self_iff_empty _).mp hdisj)

/-- A valid id's name is an element of the target list. -/
theorem compName_mem {targets : List String} {array_id : ℕ}
    (h1 : 1 ≤ array_id) (h2 : array_id ≤ targets.length) :
    compName targets array_id ∈ targets := by
  have hlt : array_id - 1 < targets.length := by omega
  rw [compName, List.getD_eq_getElem?_getD, List.getElem?_eq_getElem hlt]
  exact List.getElem_mem _

/-! ### Admission-scan frame lemmas -/

/-- An admission step only ever grows the active set and the occupancy
multiset, and leaves the queue and the retired-name sets untouched. -/
theorem admit_step_frame {cfg : Config} {s s' : SchedState} {array_id : ℕ}
    (h : admit_step cfg s array_id = .ok s') :
    s'.remaining = s.remaining ∧ s'.completed_srcs = s.completed_srcs ∧
    s'.failed_srcs = s.failed_srcs ∧ s.active_ids ⊆ s'.active_ids ∧
    s.active_ms ≤ s'.active_ms := by
  rcases admit_step_spec h with rfl | ⟨_, _, _, rfl⟩
  · exact ⟨rfl, rfl, rfl, Finset.Subset.refl _, le_refl _⟩
  · exact ⟨rfl, rfl, rfl, Finset.subset_insert _ _, Multiset.le_add_right _ _⟩

/-! ### The claims -/

/-- C1: the claim says that with `|active| > minConcurrencyLimit` a job
whose beam set intersects the held multiset is skipped and stays queued.
In the code, reaching the conflict test at line 176 evaluates
`tgt_ms & active_ms` — a Python `set & list` — so the cycle aborts with
a `TypeError` instead of skipping the job: at a state above the floor
with a genuine handle conflict, `job_loop` returns the error. -/
theorem c1_conflict_check_raises :
    stConflict.active_ids.card > cfgConflict.min_concurrency_limit ∧
    (1 : ℕ) ∈ cfgConflict.src_beam_map (compName cfgConflict.targets 2) ∧
    (1 : ℕ) ∈ stConflict.active_ms ∧
    job_loop cfgConflict (fun _ => false) (fun _ => false) stConflict =
      .error .typeError := by
  refine ⟨by decide, by decide, by decide, by decide⟩

/-- C2: at or below the concurrency floor and below the ceiling, the
next queued job is admitted even though its beam set intersects the held
multiset — the conflict test is short-circuited away — and the job is in
the active set of any state the admission scan successfully ends in. -/
theorem c2_floor_admission (cfg : Config) (s : SchedState) (array_id : ℕ) (rest : List ℕ)
    (hrem : s.remaining = array_id :: rest)
    (hact : array_id ∉ s.active_ids)
    (hcomp : compName cfg.targets array_id ∉ s.completed_srcs)
    (hfloor : s.active_ids.card ≤ cfg.min_concurrency_limit)
    (hcap : s.active_ids.card < cfg.concurrency_limit) :
    admit_step cfg s array_id =
      .ok { s with active_ms := s.active_ms +
                     (cfg.src_beam_map (compName cfg.targets array_id)).val,
                   active_ids := insert array_id s.active_ids } ∧
    ∀ s', admission_scan cfg s = .ok s' → array_id ∈ s'.active_ids := by
  have h3 : ¬ s.active_ids.card > cfg.min_concurrency_limit := Nat.not_lt.mpr hfloor
  have hstep : admit_step cfg s array_id =
      .ok { s with active_ms := s.active_ms +
                     (cfg.src_beam_map (compName cfg.targets array_id)).val,
                   active_ids := insert array_id s.active_ids } := by
    simp [admit_step, hact, hcomp, h3, hcap]
  refine ⟨hstep, ?_⟩
  intro s' h
  unfold admission_scan at h
  rw [hrem] at h
  unfold exceptFold at h
  rw [hstep] at h
  dsimp only at h
  refine exceptFold_inv (P := fun t => array_id ∈ t.active_ids) ?_ rest _ s' ?_ h
  · intro t a t' hP hstep'
    exact (admit_step_frame hstep').2.2.2.1 hP
  · exact Finset.mem_insert_self _ _

/-- C2 witness: a concrete admission at the floor with a genuine handle
conflict (beam 1 is held and also needed by job 2). -/
theorem c2_floor_admission_witness :
    stFloor.remaining = 2 :: [] ∧
    (2 : ℕ) ∉ stFloor.active_ids ∧
    compName cfgFloor.targets 2 ∉ stFloor.completed_srcs ∧
    stFloor.active_ids.card ≤ cfgFloor.min_concurrency_limit ∧
    stFloor.active_ids.card < cfgFloor.concurrency_limit ∧
    (admit_step cfgFloor stFloor 2 =
      .ok { stFloor with
              active_ms := stFloor.active_ms +
                (cfgFloor.src_beam_map (compName cfgFloor.targets 2)).val,
              active_ids := insert 2 stFloor.active_ids } ∧
      ∀ s', admission_scan cfgFloor stFloor = .ok s' → (2 : ℕ) ∈ s'.active_ids) :=
  ⟨by decide, by decide, by decide, by decide, by decide,
    c2_floor_admission cfgFloor stFloor 2 [] (by decide) (by decide) (by decide)
      (by decide) (by decide)⟩

/-- C3 counterexample: `register_active` performs no capacity check, so
pre-activating two jobs against a ceiling of one puts the observation
point right after pre-activation above the ceiling, refuting the claim
for that run. -/
theorem c3_preactivation_exceeds_limit :
    ¬ ((preActivationState cfgOverPre [1, 2]).active_ids.card ≤
        cfgOverPre.concurrency_limit) := by
  decide

/-- C3 amended: provided the pre-activation list has at most
concurrencyLimit entries, every observation point of a run (the state
after pre-activation, `j = 0`, and the state after each completed cycle)
has at most concurrencyLimit active jobs. -/
theorem c3_active_card_bounded (cfg : Config) (compM failM : ℕ → ℕ → Bool)
    (pre : List ℕ) (i j : ℕ) (s' : SchedState)
    (hpre : pre.length ≤ cfg.concurrency_limit)
    (hrun : iterate_job_loop cfg compM failM i j (preActivationState cfg pre) = .ok s') :
    s'.active_ids.card ≤ cfg.concurrency_limit := by
  have h0 : (preActivationState cfg pre).active_ids.card ≤ cfg.concurrency_limit := by
    have h1 := register_active_card_le cfg.targets cfg.src_beam_map (initState cfg.targets) pre
    have h2 : (initState cfg.targets).active_ids.card = 0 := by simp [initState]
    unfold preActivationState
    omega
  exact iterate_inv (fun cM fM t a t' hP h => scan_step_card_le h hP)
    (fun t a t' hP h => admit_step_card_le h hP) j i _ s' h0 hrun

/-- C3 witness: a one-job run that admits the job in its first cycle and
stays at the ceiling. -/
theorem c3_active_card_bounded_witness :
    ([1] : List ℕ).length ≤ cfgStall.concurrency_limit ∧
    iterate_job_loop cfgStall (fun _ _ => false) (fun _ _ => false) 0 1
        (preActivationState cfgStall [1]) = .ok ⟨{1}, {1}, [1], ∅, ∅⟩ ∧
    (⟨{1}, {1}, [1], ∅, ∅⟩ : SchedState).active_ids.card ≤ cfgStall.concurrency_limit :=
  ⟨by decide, by decide,
    c3_active_card_bounded cfgStall (fun _ _ => false) (fun _ _ => false) [1] 0 1
      ⟨{1}, {1}, [1], ∅, ∅⟩ (by decide) (by decide)⟩

/-- C4 counterexample: `register_active` appends the beam set once per
list entry but inserts the id into a set, so pre-activating the same id
twice leaves the occupancy multiset holding beam 5 twice while only one
active job contributes it — refuting the claim at the observation point
after pre-activation. -/
theorem c4_duplicate_preactivation_breaks_held :
    ¬ ((preActivationState cfgDupPre [1, 1]).active_ms
        = heldOf cfgDupPre (preActivationState cfgDupPre [1, 1]).active_ids) := by
  decide

/-- C4 amended: provided the pre-activation list has no duplicate ids,
at every observation point of a run the occupancy multiset equals the
multiset union of the beam sets of the currently active jobs. -/
theorem c4_held_matches_active (cfg : Config) (compM failM : ℕ → ℕ → Bool)
    (pre : List ℕ) (i j : ℕ) (s' : SchedState)
    (hpre : pre.Nodup)
    (hrun : iterate_job_loop cfg compM failM i j (preActivationState cfg pre) = .ok s') :
    s'.active_ms = heldOf cfg s'.active_ids := by
  have h0 : (preActivationState cfg pre).active_ms
      = heldOf cfg (preActivationState cfg pre).active_ids := by
    unfold preActivationState register_active
    split
    · simp [initState, heldOf]
    · dsimp only
      apply regFold_held cfg pre (initState cfg.targets) hpre
      · intro a _
        simp [initState]
      · simp [initState, heldOf]
  exact iterate_inv (fun cM fM t a t' hP h => scan_step_held h hP)
    (fun t a t' hP h => admit_step_held h hP) j i _ s' h0 hrun

/-- C4 witness: a one-job run; after one cycle the occupancy multiset
is exactly the beam set of the single active job. -/
theorem c4_held_matches_active_witness :
    ([1] : List ℕ).Nodup ∧
    iterate_job_loop cfgDupPre (fun _ _ => false) (fun _ _ => false) 0 1
        (preActivationState cfgDupPre [1]) = .ok ⟨{1}, {5}, [1], ∅, ∅⟩ ∧
    (⟨{1}, {5}, [1], ∅, ∅⟩ : SchedState).active_ms
      = heldOf cfgDupPre (⟨{1}, {5}, [1], ∅, ∅⟩ : SchedState).active_ids :=
  ⟨by decide, by decide,
    c4_held_matches_active cfgDupPre (fun _ _ => false) (fun _ _ => false) [1] 0 1
      ⟨{1}, {5}, [1], ∅, ∅⟩ (by decide) (by decide)⟩

/-- C5: a marker detected for an id (its name not yet retired): if the
id is active, exactly its beam multiset is removed from the occupancy
and the id leaves the active set; if it is not active, the occupancy is
untouched; in all four cases the id is erased from the queue and the
name joins the completed (resp. failed) set — COMPLETED is checked
before FAILED. -/
theorem c5_marker_retirement (cfg : Config) (compM failM : ℕ → Bool)
    (s : SchedState) (array_id : ℕ)
    (hc : compName cfg.targets array_id ∉ s.completed_srcs)
    (hf : compName cfg.targets array_id ∉ s.failed_srcs) :
    (compM array_id = true →
      (array_id ∈ s.active_ids →
        (cfg.src_beam_map (compName cfg.targets array_id)).val ≤ s.active_ms →
        scan_step cfg compM failM s array_id =
          .ok { active_ids := s.active_ids.erase array_id,
                active_ms := s.active_ms -
                  (cfg.src_beam_map (compName cfg.targets array_id)).val,
                remaining := s.remaining.erase array_id,
                completed_srcs := insert (compName cfg.targets array_id) s.completed_srcs,
                failed_srcs := s.failed_srcs }) ∧
      (array_id ∉ s.active_ids →
        scan_step cfg compM failM s array_id =
          .ok { s with
                  completed_srcs := insert (compName cfg.targets array_id) s.completed_srcs,
                  remaining := s.remaining.erase array_id })) ∧
    (compM array_id = false → failM array_id = true →
      (array_id ∈ s.active_ids →
        (cfg.src_beam_map (compName cfg.targets array_id)).val ≤ s.active_ms →
        scan_step cfg compM failM s array_id =
          .ok { active_ids := s.active_ids.erase array_id,
                active_ms := s.active_ms -
                  (cfg.src_beam_map (compName cfg.targets array_id)).val,
                remaining := s.remaining.erase array_id,
                completed_srcs := s.completed_srcs,
                failed_srcs := insert (compName cfg.targets array_id) s.failed_srcs }) ∧
      (array_id ∉ s.active_ids →
        scan_step cfg compM failM s array_id =
          .ok { s with
                  failed_srcs := insert (compName cfg.targets array_id) s.failed_srcs,
                  remaining := s.remaining.erase array_id })) := by
  have hno : ¬ (compName cfg.targets array_id ∈ s.completed_srcs ∨
      compName cfg.targets array_id ∈ s.failed_srcs) := by tauto
  constructor
  · intro hM
    constructor
    · intro hmem hle
      simp [scan_step, hno, hM, hmem, mark_comp_done, hle]
    · intro hmem
      simp [scan_step, hno, hM, hmem]
  · intro hM hF
    constructor
    · intro hmem hle
      simp [scan_step, hno, hM, hF, hmem, mark_comp_done, hle]
    · intro hmem
      simp [scan_step, hno, hM, hF, hmem]

/-- C5 witness: job 1 is active with beam 1 when its COMPLETED marker
appears; the scan step releases exactly beam 1, retires the id and
records the name. -/
theorem c5_marker_retirement_witness :
    compName cfgMark.targets 1 ∉ stMark.completed_srcs ∧
    compName cfgMark.targets 1 ∉ stMark.failed_srcs ∧
    ((fun n => decide (n = 1)) 1 = true →
      ((1 : ℕ) ∈ stMark.active_ids →
        (cfgMark.src_beam_map (compName cfgMark.targets 1)).val ≤ stMark.active_ms →
        scan_step cfgMark (fun n => decide (n = 1)) (fun _ => false) stMark 1 =
          .ok { active_ids := stMark.active_ids.erase 1,
                active_ms := stMark.active_ms -
                  (cfgMark.src_beam_map (compName cfgMark.targets 1)).val,
                remaining := stMark.remaining.erase 1,
                completed_srcs := insert (compName cfgMark.targets 1) stMark.completed_srcs,
                failed_srcs := stMark.failed_srcs }) ∧
      ((1 : ℕ) ∉ stMark.active_ids →
        scan_step cfgMark (fun n => decide (n = 1)) (fun _ => false) stMark 1 =
          .ok { stMark with
                  completed_srcs := insert (compName cfgMark.targets 1) stMark.completed_srcs,
                  remaining := stMark.remaining.erase 1 })) :=
  ⟨by decide, by decide,
    (c5_marker_retirement cfgMark (fun n => decide (n = 1)) (fun _ => false) stMark 1
      (by decide) (by decide)).1⟩

/-- C6: within a single cycle the completion scan runs to completion
before any admission decision: if job `a` is the only active job and its
COMPLETED marker is present, then in the very same `job_loop` call job
`a`'s handles are released and the still-queued job `b` — whose beam set
is unconstrained, so it may overlap the handles `a` just freed — is
admitted, ending the cycle with `b` active and holding its beams. -/
theorem c6_release_precedes_admission (cfg : Config) (compM failM : ℕ → Bool)
    (a b : ℕ) (s : SchedState)
    (hrem : s.remaining = [a, b])
    (hact : s.active_ids = {a})
    (hms : s.active_ms = (cfg.src_beam_map (compName cfg.targets a)).val)
    (hab : a ≠ b)
    (hnames : compName cfg.targets a ≠ compName cfg.targets b)
    (haC : compName cfg.targets a ∉ s.completed_srcs)
    (haF : compName cfg.targets a ∉ s.failed_srcs)
    (hbC : compName cfg.targets b ∉ s.completed_srcs)
    (hbF : compName cfg.targets b ∉ s.failed_srcs)
    (hMa : compM a = true)
    (hMb : compM b = false)
    (hFb : failM b = false)
    (hcap : 0 < cfg.concurrency_limit) :
    job_loop cfg compM failM s =
      .ok (⟨{b}, (cfg.src_beam_map (compName cfg.targets b)).val, [b],
            insert (compName cfg.targets a) s.completed_srcs, s.failed_srcs⟩, 1) := by
  obtain ⟨act, ms, rem, comp, fld⟩ := s
  dsimp only at hrem hact hms haC haF hbC hbF
  subst hrem hact hms
  have hnames' : compName cfg.targets b ≠ compName cfg.targets a := hnames.symm
  have hba : b ≠ a := hab.symm
  simp [job_loop, observer_scan, admission_scan, exceptFold, scan_step, mark_comp_done,
    admit_step, hMa, hMb, hFb, haC, haF, hbC, hbF, hnames', hba, hcap,
    List.erase_cons_head, Finset.erase_singleton]

/-- C6 witness: jobs 1 and 2 both need beam 7; job 1's COMPLETED marker
is present, and in the same cycle job 2 is admitted and holds the very
beam job 1 released. -/
theorem c6_release_precedes_admission_witness :
    stCycle.active_ids = {1} ∧
    (7 : ℕ) ∈ stCycle.active_ms ∧
    (7 : ℕ) ∈ cfgCycle.src_beam_map (compName cfgCycle.targets 2) ∧
    job_loop cfgCycle (fun n => decide (n = 1)) (fun _ => false) stCycle =
      .ok (⟨{2}, (cfgCycle.src_beam_map (compName cfgCycle.targets 2)).val, [2],
            insert (compName cfgCycle.targets 1) stCycle.completed_srcs,
            stCycle.failed_srcs⟩, 1) :=
  ⟨by decide, by decide, by decide,
    c6_release_precedes_admission cfgCycle (fun n => decide (n = 1)) (fun _ => false)
      1 2 stCycle (by decide) (by decide) (by decide) (by decide) (by decide) (by decide)
      (by decide) (by decide) (by decide) (by decide) (by decide) (by decide) (by decide)⟩

/-- C7: a run whose queue is still non-empty after the whole loop budget
signals the exhaustion error carrying the count of incomplete jobs, and
a successful run never executes more than `max_loops` iterations. -/
theorem c7_exhaustion (cfg : Config) (compM failM : ℕ → ℕ → Bool) (pre : List ℕ)
    (max_loops : ℕ) (s' : SchedState) :
    (iterate_job_loop cfg compM failM 0 max_loops (preActivationState cfg pre) = .ok s' →
      s'.remaining ≠ [] →
      produce_all_cutouts cfg compM failM pre max_loops =
        .error (.exhausted s'.remaining.length)) ∧
    (∀ iters total, produce_all_cutouts cfg compM failM pre max_loops = .ok (iters, total) →
      iters ≤ max_loops) := by
  constructor
  · intro hit hne
    exact driver_loop_exhausts max_loops 0 _ s' _ hit hne
  · intro iters total h
    have := driver_loop_ok_le max_loops 0 _ _ iters total h
    omega

/-- C7 witness: one job whose markers never appear, loop budget 2; after
two cycles the job is still queued and the run raises the exhaustion
error reporting one remaining cutout. -/
theorem c7_exhaustion_witness :
    iterate_job_loop cfgStall (fun _ _ => false) (fun _ _ => false) 0 2
        (preActivationState cfgStall []) = .ok ⟨{1}, {1}, [1], ∅, ∅⟩ ∧
    (⟨{1}, {1}, [1], ∅, ∅⟩ : SchedState).remaining ≠ [] ∧
    produce_all_cutouts cfgStall (fun _ _ => false) (fun _ _ => false) [] 2 =
      .error (.exhausted 1) :=
  ⟨by decide, by decide,
    (c7_exhaustion cfgStall (fun _ _ => false) (fun _ _ => false) [] 2
      ⟨{1}, {1}, [1], ∅, ∅⟩).1 (by decide) (by decide)⟩

/-- C8: the claim says an empty catalog completes trivially without
error. The loop indeed runs zero iterations and the exhaustion check
passes, but the success report at line 231 computes
`total_concurrency/i` with `i = 0`, so the run raises `ZeroDivisionError`
instead of finishing cleanly. -/
theorem c8_empty_catalog_divzero :
    produce_all_cutouts cfgEmptyCat (fun _ _ => false) (fun _ _ => false) [] 500 =
      .error (.pyErr .zeroDivisionError) := by
  decide

/-- The size of a sum of multisets is the sum of their sizes. -/
theorem card_list_sum :
    ∀ (l : List (Multiset ℕ)), Multiset.card l.sum = (l.map Multiset.card).sum := by
  intro l
  induction l with
  | nil => simp
  | cons m rest ih => simp [ih]

/-- C9: pre-activating ids of catalog jobs with pairwise-disjoint beam
sets, from the initial empty state, activates exactly one job per listed
id, enlarges the occupancy multiset by exactly the total size of the
listed beam sets, and returns the resulting active count. `register_active`
takes no limits and does no conflict or capacity test, so no hypothesis
about either limit is needed. (Catalog-derived beam sets are non-empty,
which with pairwise disjointness forces the listed ids to be distinct.) -/
theorem c9_preactivation (rows : List (String × ℕ)) (pre : List ℕ)
    (hrange : ∀ array_id ∈ pre, 1 ≤ array_id ∧ array_id ≤ (read_image_params rows).length)
    (hdisj : pre.Pairwise (fun a b =>
      Disjoint (build_map rows (compName (read_image_params rows) a))
               (build_map rows (compName (read_image_params rows) b)))) :
    ((register_active (read_image_params rows) (build_map rows)
        (initState (read_image_params rows)) pre).1).active_ids.card = pre.length ∧
    Multiset.card ((register_active (read_image_params rows) (build_map rows)
        (initState (read_image_params rows)) pre).1).active_ms =
      (pre.map (fun array_id =>
        (build_map rows (compName (read_image_params rows) array_id)).card)).sum ∧
    (register_active (read_image_params rows) (build_map rows)
        (initState (read_image_params rows)) pre).2 =
      ((register_active (read_image_params rows) (build_map rows)
        (initState (read_image_params rows)) pre).1).active_ids.card := by
  have hnonempty : ∀ a ∈ pre, build_map rows (compName (read_image_params rows) a) ≠ ∅ := by
    intro a ha
    obtain ⟨h1, h2⟩ := hrange a ha
    exact build_map_nonempty (compName_mem h1 h2)
  have hnd : pre.Nodup := pairwise_disjoint_nodup hdisj hnonempty
  unfold register_active
  split
  · rename_i hnil
    subst hnil
    simp [initState]
  · dsimp only
    refine ⟨?_, ?_, rfl⟩
    · rw [regFold_card _ _ pre _ hnd (by intro a _; simp [initState])]
      simp [initState]
    · rw [regFold_ms]
      simp only [initState]
      rw [show ((0 : Multiset ℕ) + (pre.map (fun array_id =>
            (build_map rows (compName (read_image_params rows) array_id)).val)).sum) =
          (pre.map (fun array_id =>
            (build_map rows (compName (read_image_params rows) array_id)).val)).sum
        from zero_add _]
      rw [card_list_sum, List.map_map]
      rfl

/-- C9 witness: two catalog jobs A (beam 1) and B (beam 2) pre-activated
together: two active jobs, two held beams, return value equal to the
active count. -/
theorem c9_preactivation_witness :
    (∀ array_id ∈ ([1, 2] : List ℕ), 1 ≤ array_id ∧
      array_id ≤ (read_image_params [("A", 1), ("B", 2)]).length) ∧
    (([1, 2] : List ℕ).Pairwise (fun a b =>
      Disjoint (build_map [("A", 1), ("B", 2)] (compName (read_image_params [("A", 1), ("B", 2)]) a))
               (build_map [("A", 1), ("B", 2)] (compName (read_image_params [("A", 1), ("B", 2)]) b)))) ∧
    ((register_active (read_image_params [("A", 1), ("B", 2)]) (build_map [("A", 1), ("B", 2)])
        (initState (read_image_params [("A", 1), ("B", 2)])) [1, 2]).1).active_ids.card = 2 ∧
    Multiset.card ((register_active (read_image_params [("A", 1), ("B", 2)])
        (build_map [("A", 1), ("B", 2)])
        (initState (read_image_params [("A", 1), ("B", 2)])) [1, 2]).1).active_ms = 2 ∧
    (register_active (read_image_params [("A", 1), ("B", 2)]) (build_map [("A", 1), ("B", 2)])
        (initState (read_image_params [("A", 1), ("B", 2)])) [1, 2]).2 =
      ((register_active (read_image_params [("A", 1), ("B", 2)]) (build_map [("A", 1), ("B", 2)])
        (initState (read_image_params [("A", 1), ("B", 2)])) [1, 2]).1).active_ids.card := by
  have h := c9_preactivation [("A", 1), ("B", 2)] [1, 2] (by decide) (by decide)
  exact ⟨by decide, by decide, by rw [h.1]; decide, by rw [h.2.1]; decide, h.2.2⟩


/-- C10: a successful admission scan leaves the queue and both
retired-name sets exactly as they were, and only ever grows the active
set and the occupancy multiset. -/
theorem c10_admission_scan_frame (cfg : Config) (s s' : SchedState)
    (h : admission_scan cfg s = .ok s') :
    s'.remaining = s.remaining ∧ s'.completed_srcs = s.completed_srcs ∧
    s'.failed_srcs = s.failed_srcs ∧ s.active_ids ⊆ s'.active_ids ∧
    s.active_ms ≤ s'.active_ms := by
  refine exceptFold_inv (P := fun t => t.remaining = s.remaining ∧
      t.completed_srcs = s.completed_srcs ∧ t.failed_srcs = s.failed_srcs ∧
      s.active_ids ⊆ t.active_ids ∧ s.active_ms ≤ t.active_ms)
    ?_ s.remaining s s' ⟨rfl, rfl, rfl, Finset.Subset.refl _, le_refl _⟩ h
  intro t a t' hP hstep
  obtain ⟨f1, f2, f3, f4, f5⟩ := admit_step_frame hstep
  exact ⟨f1.trans hP.1, f2.trans hP.2.1, f3.trans hP.2.2.1,
    hP.2.2.2.1.trans f4, le_trans hP.2.2.2.2 f5⟩

/-- C10 witness: a concrete scan that admits job 1; the queue and the
retired sets are unchanged while the job and its beam are added. -/
theorem c10_admission_scan_frame_witness :
    admission_scan cfgStall (⟨∅, 0, [1], ∅, ∅⟩ : SchedState) = .ok ⟨{1}, {1}, [1], ∅, ∅⟩ ∧
    ((⟨{1}, {1}, [1], ∅, ∅⟩ : SchedState).remaining =
        (⟨∅, 0, [1], ∅, ∅⟩ : SchedState).remaining ∧
      (⟨{1}, {1}, [1], ∅, ∅⟩ : SchedState).completed_srcs =
        (⟨∅, 0, [1], ∅, ∅⟩ : SchedState).completed_srcs ∧
      (⟨{1}, {1}, [1], ∅, ∅⟩ : SchedState).failed_srcs =
        (⟨∅, 0, [1], ∅, ∅⟩ : SchedState).failed_srcs ∧
      (⟨∅, 0, [1], ∅, ∅⟩ : SchedState).active_ids ⊆
        (⟨{1}, {1}, [1], ∅, ∅⟩ : SchedState).active_ids ∧
      (⟨∅, 0, [1], ∅, ∅⟩ : SchedState).active_ms ≤
        (⟨{1}, {1}, [1], ∅, ∅⟩ : SchedState).active_ms) :=
  ⟨by decide,
    c10_admission_scan_frame cfgStall ⟨∅, 0, [1], ∅, ∅⟩ ⟨{1}, {1}, [1], ∅, ∅⟩ (by decide)⟩

end AskapCutoutDaemon
